import Mathlib

/-!
Verification development for the kip Transfer Engine
(`src/engine/copier.rs`, `src/engine/scanner.rs`, `src/engine/scheduler.rs`).

The Rust code is shallowly embedded: the Job Store (SurrealDB) is an explicit
record-keeping state, filesystem behaviour is an explicit fault/content model,
and the BLAKE3 hasher (an external crate) is an abstract hash function
parameter `h : List Nat → String` applied to byte sequences.
-/

namespace Kip

/-- Job status values, after `JobStatus` in `src/models/job.rs`. -/
inductive JobStatus where
  | pending
  | transferring
  | verifying
  | complete
  | failed
  | needsReview
deriving DecidableEq, Repr

/-- Intent status values, after `IntentStatus` in `src/models/intent.rs`. -/
inductive IntentStatus where
  | idle
  | scanning
  | transferring
  | verifying
  | complete
  | waitingForDevice
  | needsReview
  | paused
deriving DecidableEq, Repr

/-- The four `std::io::ErrorKind` classes that `map_io_error` distinguishes:
`NotFound`, `PermissionDenied`, `StorageFull`, and the catch-all `_` arm. -/
inductive IoErrorKind where
  | notFound
  | permissionDenied
  | storageFull
  | other
deriving DecidableEq, Repr

/-- A raw I/O error: its `ErrorKind` plus its display message. -/
structure IoError where
  kind : IoErrorKind
  msg : String
deriving DecidableEq, Repr

/-- `CopyError` from `src/engine/copier.rs`. -/
inductive CopyError where
  | jobNotFound (s : String)
  | sourceNotFound (s : String)
  | permissionDenied (s : String)
  | diskFull (s : String)
  | ioError (s : String)
  | hashMismatch (sourceHash destHash : String)
  | dbError (s : String)
deriving DecidableEq, Repr

/-- `CopyError::is_retryable`: transient I/O only. -/
def CopyError.is_retryable : CopyError → Bool
  | .ioError _ => true
  | _ => false

/-- The `thiserror` display strings of `CopyError` (the `#[error("...")]`
attributes in `src/engine/copier.rs`). -/
def CopyError.message : CopyError → String
  | .jobNotFound s => "job not found: " ++ s
  | .sourceNotFound s => "source file not found: " ++ s
  | .permissionDenied s => "permission denied: " ++ s
  | .diskFull s => "disk full: " ++ s
  | .ioError s => "I/O error: " ++ s
  | .hashMismatch a b => "hash mismatch: source=" ++ a ++ ", dest=" ++ b
  | .dbError s => "database error: " ++ s

/-- `map_io_error` from `src/engine/copier.rs`: classify a raw I/O error,
tagging it with the path of the file operation that raised it. -/
def map_io_error (e : IoError) (path : String) : CopyError :=
  match e.kind with
  | .notFound => .sourceNotFound path
  | .permissionDenied => .permissionDenied path
  | .storageFull => .diskFull path
  | .other => .ioError (path ++ ": " ++ e.msg)

/-- `classify_error` from `src/engine/copier.rs`: the error-kind tag stored
on the job and the review item. -/
def classify_error : CopyError → String
  | .sourceNotFound _ => "source_missing"
  | .permissionDenied _ => "permission_denied"
  | .diskFull _ => "disk_full"
  | .hashMismatch _ _ => "hash_mismatch"
  | .ioError _ => "io_error"
  | .jobNotFound _ => "internal"
  | .dbError _ => "internal"

/-- `resolution_options` from `src/engine/copier.rs`: the ordered resolution
options offered on a review item, per error kind. -/
def resolution_options (errorKind : String) : List String :=
  match errorKind with
  | "source_missing" => ["skip", "rescan"]
  | "permission_denied" => ["retry", "skip"]
  | "disk_full" => ["retry", "skip"]
  | "hash_mismatch" => ["retry", "skip", "accept"]
  | "io_error" => ["retry", "skip"]
  | _ => ["skip"]

/-- `CopyResult` from `src/engine/copier.rs`. -/
structure CopyResult where
  bytesCopied : Nat
  sourceHash : String
  destHash : String
  verified : Bool
deriving DecidableEq, Repr

/-!
## Filesystem model for the copy pipeline

`copy_and_hash` performs a fixed sequence of filesystem operations.  We model
one invocation's filesystem behaviour explicitly: the source content is the
sequence of (non-empty) chunks the `read` loop returns, each fallible
operation carries an optional injected `IoError`, and `corrupt` gives the
bytes actually found on disk when the destination is independently re-read
after the write (identity when the disk is faithful).
-/

structure FsModel where
  /-- error from `fs::create_dir_all` on the destination's parent, if any -/
  createDirErr : Option IoError
  /-- error from `fs::File::open` on the source, if any -/
  openSourceErr : Option IoError
  /-- the successive non-empty chunks the source read loop yields -/
  sourceChunks : List (List Nat)
  /-- error from `fs::File::create` on the destination, if any -/
  createDestErr : Option IoError
  /-- read error raised after this many successful chunk reads -/
  readErr : Option (Nat × IoError)
  /-- write error raised when writing the chunk with this index -/
  writeErr : Option (Nat × IoError)
  /-- error from `flush` on the destination, if any -/
  flushErr : Option IoError
  /-- bytes found on disk when re-reading the destination after writing -/
  corrupt : List Nat → List Nat
  /-- error from re-opening the destination in `hash_file`, if any -/
  reopenDestErr : Option IoError

/-- Whether an injected per-chunk fault fires at chunk index `i`. -/
def faultAt (f : Option (Nat × IoError)) (i : Nat) : Option IoError :=
  match f with
  | some (j, e) => if j = i then some e else none
  | none => none

/-- The read/hash/write chunk loop of `copy_and_hash`.  Arguments after the
error injections: remaining chunks, current chunk index, `bytes_copied`,
`chunks_since_progress`, accumulated progress updates (the `bytes` values
pushed by `update_progress`, in order).  Returns the final `bytes_copied`
(or the mapped I/O error) together with the progress updates issued. -/
def stream_chunks (sourcePath destPath : String)
    (readErr writeErr : Option (Nat × IoError)) :
    List (List Nat) → Nat → Nat → Nat → List Nat →
    Except CopyError Nat × List Nat
  | [], i, bytes, _, prog =>
    match faultAt readErr i with
    | some e => (.error (map_io_error e sourcePath), prog)
    | none => (.ok bytes, prog)
  | c :: rest, i, bytes, cnt, prog =>
    match faultAt readErr i with
    | some e => (.error (map_io_error e sourcePath), prog)
    | none =>
      match faultAt writeErr i with
      | some e => (.error (map_io_error e destPath), prog)
      | none =>
        let bytes' := bytes + c.length
        let cnt' := cnt + 1
        if 4 ≤ cnt' then
          stream_chunks sourcePath destPath readErr writeErr rest (i + 1) bytes' 0 (prog ++ [bytes'])
        else
          stream_chunks sourcePath destPath readErr writeErr rest (i + 1) bytes' cnt' prog

/-- `copy_and_hash` from `src/engine/copier.rs`, over the filesystem model:
create parent dirs, open source, create destination, stream chunks through
hash-and-write, flush, finalize the source hash, then independently re-read
the destination with `hash_file` and compare.  Returns the result together
with the list of progress updates issued during the stream. -/
def copy_and_hash (h : List Nat → String) (fs : FsModel)
    (sourcePath destPath : String) : Except CopyError CopyResult × List Nat :=
  match fs.createDirErr with
  | some e => (.error (map_io_error e destPath), [])
  | none =>
  match fs.openSourceErr with
  | some e => (.error (map_io_error e sourcePath), [])
  | none =>
  match fs.createDestErr with
  | some e => (.error (map_io_error e destPath), [])
  | none =>
  match stream_chunks sourcePath destPath fs.readErr fs.writeErr fs.sourceChunks 0 0 0 [] with
  | (.error e, prog) => (.error e, prog)
  | (.ok bytes, prog) =>
    match fs.flushErr with
    | some e => (.error (map_io_error e destPath), prog)
    | none =>
      let written := fs.sourceChunks.flatten
      let sourceHash := h written
      match fs.reopenDestErr with
      | some e => (.error (map_io_error e destPath), prog)
      | none =>
        let destHash := h (fs.corrupt written)
        let verified := sourceHash == destHash
        if verified then
          (.ok { bytesCopied := bytes, sourceHash := sourceHash,
                 destHash := destHash, verified := verified }, prog)
        else
          (.error (.hashMismatch sourceHash destHash), prog)

/-!
## Job Store model

SurrealDB is modelled as an explicit state: association lists of intents,
locations, and transfer jobs keyed by numeric record ids, plus the created
review items.  `nextId` models the store's fresh-id allocation.
-/

/-- A `transfer_job` record, after `TransferJob` in `src/models/job.rs`
(timestamps are not modelled). -/
structure Job where
  intent : Nat
  sourcePath : String
  destPath : String
  destination : Nat
  size : Nat
  bytesTransferred : Nat
  status : JobStatus
  attempts : Int
  maxAttempts : Int
  lastError : Option String
  errorKind : Option String
  sourceHash : Option String
  destHash : Option String
deriving DecidableEq, Repr

/-- A `review_item` record, after the `CREATE review_item CONTENT` query in
`src/engine/copier.rs` (timestamps are not modelled). -/
structure ReviewItem where
  job : Nat
  intent : Nat
  errorKind : String
  errorMessage : String
  sourcePath : String
  destPath : String
  options : List String
deriving DecidableEq, Repr

/-- An `intent` record, restricted to the fields the engine reads or
writes, after `Intent` in `src/models/intent.rs`. -/
structure Intent where
  source : Nat
  destinations : List Nat
  status : IntentStatus
  totalFiles : Nat
  totalBytes : Nat
  completedFiles : Nat
deriving DecidableEq, Repr

/-- The Job Store state. -/
structure Store where
  intents : List (Nat × Intent)
  locations : List (Nat × String)
  jobs : List (Nat × Job)
  reviews : List ReviewItem
  nextId : Nat
deriving DecidableEq, Repr

/-- Read a job record by id (`SELECT ... FROM $id` on a `transfer_job`). -/
def Store.getJob (s : Store) (id : Nat) : Option Job :=
  (s.jobs.find? (fun p => p.1 == id)).map (fun p => p.2)

/-- Partial-field update of the job record with this id (`UPDATE $id SET`). -/
def Store.updateJob (s : Store) (id : Nat) (f : Job → Job) : Store :=
  { s with jobs := s.jobs.map (fun p => if p.1 == id then (p.1, f p.2) else p) }

/-- Read an intent record by id. -/
def Store.getIntent (s : Store) (id : Nat) : Option Intent :=
  (s.intents.find? (fun p => p.1 == id)).map (fun p => p.2)

/-- Partial-field update of the intent record with this id. -/
def Store.updateIntent (s : Store) (id : Nat) (f : Intent → Intent) : Store :=
  { s with intents := s.intents.map (fun p => if p.1 == id then (p.1, f p.2) else p) }

/-- `CREATE review_item CONTENT { ... }`: append a review item record. -/
def Store.addReview (s : Store) (item : ReviewItem) : Store :=
  { s with reviews := s.reviews ++ [item] }

/-- Per-write fault injection for the Job-Store writes `copy_job` performs.
`true` means that write fails with a database error.  `progress k` governs
the `k`-th progress update of the copy pipeline. -/
structure DbFaults where
  setTransferring : Bool
  setComplete : Bool
  setFailure : Bool
  createReview : Bool
  progress : Nat → Bool

/-- The fault-free Job Store. -/
def noFaults : DbFaults :=
  { setTransferring := false, setComplete := false, setFailure := false,
    createReview := false, progress := fun _ => false }

/-- Apply the pipeline's progress updates to the store: the `k`-th update
sets `bytes_transferred`, unless that write faults, in which case it is
silently dropped (`update_progress` ignores its result). -/
def applyProgress (jobId : Nat) (fault : Nat → Bool) :
    Nat → List Nat → Store → Store
  | _, [], s => s
  | k, v :: rest, s =>
    let s' := if fault k then s else s.updateJob jobId (fun j => { j with bytesTransferred := v })
    applyProgress jobId fault (k + 1) rest s'

/-- `copy_job` from `src/engine/copier.rs`: load the job, flip it to
`transferring`, run the copy pipeline, then either persist the successful
result or classify the failure, bump `attempts`, decide retry vs review,
and (on review) create the review item — whose write failure the code
ignores (`let _ = ...`). -/
def copy_job (h : List Nat → String) (faults : DbFaults) (fs : FsModel)
    (s : Store) (jobId : Nat) : Except CopyError CopyResult × Store :=
  match s.getJob jobId with
  | none => (.error (.jobNotFound (toString jobId)), s)
  | some job =>
    if faults.setTransferring then (.error (.dbError "db"), s)
    else
      let s1 := s.updateJob jobId (fun j => { j with status := .transferring })
      match copy_and_hash h fs job.sourcePath job.destPath with
      | (.ok r, prog) =>
        let s2 := applyProgress jobId faults.progress 0 prog s1
        if faults.setComplete then (.error (.dbError "db"), s2)
        else
          (.ok r, s2.updateJob jobId (fun j =>
            { j with status := .complete, sourceHash := some r.sourceHash,
                     destHash := some r.destHash, bytesTransferred := r.bytesCopied }))
      | (.error e, prog) =>
        let s2 := applyProgress jobId faults.progress 0 prog s1
        let newAttempts := job.attempts + 1
        let newStatus : JobStatus :=
          if e.is_retryable = true ∧ newAttempts < job.maxAttempts then .pending
          else .needsReview
        let kind := classify_error e
        if faults.setFailure then (.error (.dbError "db"), s2)
        else
          let s3 := s2.updateJob jobId (fun j =>
            { j with status := newStatus, attempts := newAttempts,
                     lastError := some e.message, errorKind := some kind })
          let s4 :=
            if newStatus = .needsReview ∧ faults.createReview = false then
              s3.addReview
                { job := jobId, intent := job.intent, errorKind := kind,
                  errorMessage := e.message, sourcePath := job.sourcePath,
                  destPath := job.destPath, options := resolution_options kind }
            else s3
          (.error e, s4)

/-!
## Scanner (`src/engine/scanner.rs`)

The source directory tree is modelled explicitly.  `walkdir` with
`follow_links(false)` yields a stream of items; the code skips directories
silently, counts symlinks, counts items whose metadata read fails, and
counts walk-iterator errors (for example an unreadable directory, whose
contents are then never yielded) — each as one skipped entry.
-/

/-- One entry of a directory tree, as seen by the walk:  a regular file with
its size, a subdirectory, a symlink (skipped, counted), a file whose
metadata read fails (skipped, counted), or a directory the walk cannot read
(one iterator error: skipped, counted, contents never yielded). -/
inductive FsEntry where
  | file (name : String) (size : Nat)
  | dir (name : String) (entries : List FsEntry)
  | symlink (name : String)
  | unreadableFile (name : String)
  | unreadableDir (name : String)

/-- What the source path resolves to on disk. -/
inductive RootFs where
  | missing
  | notDir
  | dir (entries : List FsEntry)

/-- `ScanError` from `src/engine/scanner.rs`. -/
inductive ScanError where
  | intentNotFound (s : String)
  | sourceLocationNotFound (s : String)
  | destLocationNotFound (s : String)
  | sourcePathNotExists (s : String)
  | sourcePathNotDir (s : String)
  | walkError (s : String)
  | dbError (s : String)
deriving DecidableEq, Repr

/-- `ScanResult` from `src/engine/scanner.rs`. -/
structure ScanResult where
  filesFound : Nat
  totalBytes : Nat
  jobsCreated : Nat
  skippedEntries : Nat
deriving DecidableEq, Repr

mutual

/-- The walk over one tree entry: collected `(relative path, size)` pairs of
regular files, and the skipped-entry count. -/
def walkEntry : FsEntry → String → List (String × Nat) × Nat
  | .file name size, pre => ([(pre ++ name, size)], 0)
  | .dir name entries, pre => walkEntryList entries (pre ++ name ++ "/")
  | .symlink _, _ => ([], 1)
  | .unreadableFile _, _ => ([], 1)
  | .unreadableDir _, _ => ([], 1)

/-- The walk over a list of sibling entries, in order. -/
def walkEntryList : List FsEntry → String → List (String × Nat) × Nat
  | [], _ => ([], 0)
  | e :: rest, pre =>
    let r1 := walkEntry e pre
    let r2 := walkEntryList rest pre
    (r1.1 ++ r2.1, r1.2 + r2.2)

end

/-- `walk_source` from `src/engine/scanner.rs`: check the source root
exists and is a directory, then walk it collecting regular files (relative
path and size) and the count of skipped entries. -/
def walk_source (root : RootFs) (sourcePath : String) :
    Except ScanError (List (String × Nat) × Nat) :=
  match root with
  | .missing => .error (.sourcePathNotExists sourcePath)
  | .notDir => .error (.sourcePathNotDir sourcePath)
  | .dir entries => .ok (walkEntryList entries "")

/-- `trim_end_matches('/')`: drop every trailing slash. -/
def trimSlash (s : String) : String :=
  String.mk ((s.toList.reverse.dropWhile (fun c => c = '/')).reverse)

/-- Resolve each destination location id to its path, in declaration order,
failing with destination-location-not-found on the first unresolvable id
(`resolve_location_path` with `is_source = false`). -/
def resolve_dest_paths (locations : List (Nat × String)) :
    List Nat → Except ScanError (List (Nat × String))
  | [] => .ok []
  | d :: rest =>
    match (locations.find? (fun p => p.1 == d)).map (fun p => p.2) with
    | none => .error (.destLocationNotFound (toString d))
    | some path =>
      match resolve_dest_paths locations rest with
      | .error e => .error e
      | .ok tail => .ok ((d, path) :: tail)

/-- The `transfer_job` record the `CREATE transfer_job CONTENT` query
builds for one (file, destination) pair. -/
def new_transfer_job (intentId : Nat) (sourceBasePath : String)
    (d : Nat × String) (e : String × Nat) : Job :=
  { intent := intentId,
    sourcePath := trimSlash sourceBasePath ++ "/" ++ e.1,
    destPath := trimSlash d.2 ++ "/" ++ e.1,
    destination := d.1,
    size := e.2, bytesTransferred := 0, status := .pending,
    attempts := 0, maxAttempts := 3, lastError := none,
    errorKind := none, sourceHash := none, destHash := none }

/-- The inner loop of `create_transfer_jobs`: one destination, all files. -/
def create_jobs_for_dest (intentId : Nat) (sourceBasePath : String)
    (d : Nat × String) : List (String × Nat) → Nat × Store → Nat × Store
  | [], acc => acc
  | e :: rest, acc =>
    create_jobs_for_dest intentId sourceBasePath d rest
      (acc.1 + 1,
       { acc.2 with
           jobs := acc.2.jobs ++ [(acc.2.nextId, new_transfer_job intentId sourceBasePath d e)],
           nextId := acc.2.nextId + 1 })

/-- The outer loop of `create_transfer_jobs`: over all destinations. -/
def create_jobs_loop (intentId : Nat) (sourceBasePath : String)
    (entries : List (String × Nat)) : List (Nat × String) → Nat × Store → Nat × Store
  | [], acc => acc
  | d :: rest, acc =>
    create_jobs_loop intentId sourceBasePath entries rest
      (create_jobs_for_dest intentId sourceBasePath d entries acc)

/-- `create_transfer_jobs` from `src/engine/scanner.rs`: for each
destination (outer loop) and each walked file (inner loop), create one
`transfer_job` record with `status = pending`, `attempts = 0`,
`max_attempts = 3`, and paths `base/relative` with trailing slashes of the
base trimmed.  Returns the count of jobs created and the updated store. -/
def create_transfer_jobs (s : Store) (intentId : Nat) (sourceBasePath : String)
    (entries : List (String × Nat)) (destinations : List (Nat × String)) :
    Nat × Store :=
  create_jobs_loop intentId sourceBasePath entries destinations (0, s)

/-- `scan_intent` from `src/engine/scanner.rs`: load the intent, flip it to
`scanning`, resolve the source location, walk the source tree (`fsAt` maps
a resolved path to its on-disk state), resolve the destinations, create the
transfer jobs, then persist the intent's totals and its next status
(`complete` when zero jobs were created, else `transferring`). -/
def scan_intent (s : Store) (intentId : Nat) (fsAt : String → RootFs) :
    Except ScanError (ScanResult × Store) :=
  match s.getIntent intentId with
  | none => .error (.intentNotFound (toString intentId))
  | some intent =>
    let s1 := s.updateIntent intentId (fun i => { i with status := .scanning })
    match (s1.locations.find? (fun p => p.1 == intent.source)).map (fun p => p.2) with
    | none => .error (.sourceLocationNotFound (toString intent.source))
    | some sourcePath =>
      match walk_source (fsAt sourcePath) sourcePath with
      | .error e => .error e
      | .ok (entries, skipped) =>
        match resolve_dest_paths s1.locations intent.destinations with
        | .error e => .error e
        | .ok dests =>
          match create_transfer_jobs s1 intentId sourcePath entries dests with
          | (jobsCreated, s2) =>
            let totalBytes := (entries.map (fun e => e.2)).sum
            let totalJobs := entries.length * dests.length
            let nextStatus : IntentStatus :=
              if totalJobs = 0 then .complete else .transferring
            let s3 := s2.updateIntent intentId (fun i =>
              { i with status := nextStatus, totalFiles := totalJobs,
                       totalBytes := totalBytes * dests.length })
            .ok ({ filesFound := entries.length, totalBytes := totalBytes,
                   jobsCreated := jobsCreated, skippedEntries := skipped }, s3)

/-!
## Scheduler (`src/engine/scheduler.rs`)

The dispatch loop runs the pending jobs of a batch through the Copier; each
job's Copier invocation is parameterised by its own hash function,
filesystem behaviour, and Job-Store fault injection.  The unbounded `loop`
of the Rust code is given explicit fuel; `dispatch_loop` returns `none`
only when the fuel runs out (the real loop would simply keep iterating).
-/

/-- `SchedulerError` from `src/engine/scheduler.rs`. -/
inductive SchedulerError where
  | intentNotFound (s : String)
  | dbError (s : String)
deriving DecidableEq, Repr

/-- `RunResult` from `src/engine/scheduler.rs`. -/
structure RunResult where
  completed : Nat
  failed : Nat
  needsReview : Nat
deriving DecidableEq, Repr

/-- The per-job environment a Copier invocation sees. -/
structure CopyEnv where
  h : List Nat → String
  faults : DbFaults
  fs : FsModel

/-- The crash-recovery write of `run_intent`: every job of this intent
stuck in `transferring` is reset to `pending` with `bytes_transferred = 0`. -/
def recover_jobs (s : Store) (intentId : Nat) : Store :=
  { s with jobs := s.jobs.map (fun p =>
      if p.2.intent == intentId && p.2.status == JobStatus.transferring then
        (p.1, { p.2 with status := .pending, bytesTransferred := 0 })
      else p) }

/-- `get_pending_jobs`: ids of this intent's jobs with `status = pending`,
in store order. -/
def get_pending_jobs (s : Store) (intentId : Nat) : List Nat :=
  (s.jobs.filter (fun p =>
    p.2.intent == intentId && p.2.status == JobStatus.pending)).map (fun p => p.1)

/-- One batch: dispatch `copy_job` for each queried pending id.  The
scheduler awaits each task and ignores its result (`let _ = handle.await`),
so only the store effects remain. -/
def run_batch (env : Nat → CopyEnv) : List Nat → Store → Store
  | [], s => s
  | id :: rest, s =>
    run_batch env rest (copy_job (env id).h (env id).faults (env id).fs s id).2

/-- The dispatch loop: query pending jobs; exit when none remain, else run
the batch and re-query. -/
def dispatch_loop (env : Nat → CopyEnv) (intentId : Nat) :
    Nat → Store → Option Store
  | 0, _ => none
  | fuel + 1, s =>
    let ids := get_pending_jobs s intentId
    if ids.isEmpty then some s
    else dispatch_loop env intentId fuel (run_batch env ids s)

/-- `compute_result` from `src/engine/scheduler.rs`: counts of this
intent's jobs per final status. -/
def compute_result (s : Store) (intentId : Nat) : RunResult :=
  let js := s.jobs.filter (fun p => p.2.intent == intentId)
  { completed := (js.filter (fun p => p.2.status == JobStatus.complete)).length,
    needsReview := (js.filter (fun p => p.2.status == JobStatus.needsReview)).length,
    failed := (js.filter (fun p => p.2.status == JobStatus.failed)).length }

/-- `finalize_intent` from `src/engine/scheduler.rs`: persist the final
status (`needs_review` when any job needs review, else `complete`) and
`completed_files` onto the intent. -/
def finalize_intent (s : Store) (intentId : Nat) (result : RunResult) : Store :=
  let status : IntentStatus :=
    if result.needsReview > 0 then .needsReview else .complete
  s.updateIntent intentId (fun i =>
    { i with status := status, completedFiles := result.completed })

/-- `run_intent` from `src/engine/scheduler.rs`: verify the intent exists,
recover crashed jobs, drive the dispatch loop, then compute and persist the
final result.  `none` means the fuel bound was hit. -/
def run_intent (env : Nat → CopyEnv) (fuel : Nat) (s : Store) (intentId : Nat) :
    Option (Except SchedulerError (RunResult × Store)) :=
  match s.getIntent intentId with
  | none => some (.error (.intentNotFound (toString intentId)))
  | some _ =>
    match dispatch_loop env intentId fuel (recover_jobs s intentId) with
    | none => none
    | some s2 =>
      let result := compute_result s2 intentId
      some (.ok (result, finalize_intent s2 intentId result))

/-- Claim C6: `map_io_error` sends not-found to source-not-found,
permission-denied to permission-denied, storage-full to disk-full, and every
other I/O error kind to io-error; and `is_retryable` holds for `io-error`
and for no other `CopyError` variant. -/
theorem map_io_error_classification :
    (∀ msg path, map_io_error ⟨.notFound, msg⟩ path = .sourceNotFound path) ∧
    (∀ msg path, map_io_error ⟨.permissionDenied, msg⟩ path = .permissionDenied path) ∧
    (∀ msg path, map_io_error ⟨.storageFull, msg⟩ path = .diskFull path) ∧
    (∀ msg path, ∃ s, map_io_error ⟨.other, msg⟩ path = .ioError s) ∧
    (∀ e : CopyError, e.is_retryable = true ↔ ∃ s, e = .ioError s) := by
  refine ⟨fun _ _ => rfl, fun _ _ => rfl, fun _ _ => rfl, fun msg path => ⟨_, rfl⟩, ?_⟩
  intro e
  cases e <;> simp [CopyError.is_retryable]


/-!
## Store lemmas
-/

theorem find_update {α : Type} (l : List (Nat × α)) (id : Nat) (f : α → α) :
    (l.map (fun p => if p.1 == id then (p.1, f p.2) else p)).find? (fun p => p.1 == id)
      = (l.find? (fun p => p.1 == id)).map (fun p => (p.1, f p.2)) := by
  induction l with
  | nil => rfl
  | cons a rest ih =>
    simp only [List.map_cons]
    cases hha : (a.1 == id) with
    | true => simp [List.find?_cons, hha]
    | false => simpa [List.find?_cons, hha] using ih

theorem getJob_updateJob_self (s : Store) (id : Nat) (f : Job → Job) :
    (s.updateJob id f).getJob id = (s.getJob id).map f := by
  unfold Store.getJob Store.updateJob
  rw [find_update]
  cases hf : s.jobs.find? (fun p => p.1 == id) <;> simp

theorem updateJob_reviews (s : Store) (id : Nat) (f : Job → Job) :
    (s.updateJob id f).reviews = s.reviews := rfl

theorem updateJob_intents (s : Store) (id : Nat) (f : Job → Job) :
    (s.updateJob id f).intents = s.intents := rfl

theorem getJob_addReview (s : Store) (item : ReviewItem) (id : Nat) :
    (s.addReview item).getJob id = s.getJob id := rfl

theorem reviews_addReview (s : Store) (item : ReviewItem) :
    (s.addReview item).reviews = s.reviews ++ [item] := rfl

theorem intents_addReview (s : Store) (item : ReviewItem) :
    (s.addReview item).intents = s.intents := rfl

theorem applyProgress_reviews (id : Nat) (fl : Nat → Bool) :
    ∀ (k : Nat) (evs : List Nat) (s : Store),
      (applyProgress id fl k evs s).reviews = s.reviews := by
  intro k evs
  induction evs generalizing k with
  | nil => intro s; rfl
  | cons v rest ih =>
    intro s
    simp only [applyProgress]
    rw [ih]
    cases fl k <;> simp [updateJob_reviews]

theorem applyProgress_intents (id : Nat) (fl : Nat → Bool) :
    ∀ (k : Nat) (evs : List Nat) (s : Store),
      (applyProgress id fl k evs s).intents = s.intents := by
  intro k evs
  induction evs generalizing k with
  | nil => intro s; rfl
  | cons v rest ih =>
    intro s
    simp only [applyProgress]
    rw [ih]
    cases fl k <;> simp [updateJob_intents]

theorem applyProgress_getJob_isSome (id : Nat) (fl : Nat → Bool) :
    ∀ (k : Nat) (evs : List Nat) (s : Store),
      (s.getJob id).isSome = true →
      ((applyProgress id fl k evs s).getJob id).isSome = true := by
  intro k evs
  induction evs generalizing k with
  | nil => intro s hs; exact hs
  | cons v rest ih =>
    intro s hs
    simp only [applyProgress]
    apply ih
    cases hf : fl k with
    | true => simpa using hs
    | false => simp [getJob_updateJob_self, Option.isSome_map]; simpa using hs

/-!
## Copier lemmas
-/

theorem copy_and_hash_ok {h : List Nat → String} {fs : FsModel} {sp dp : String}
    {r : CopyResult} {prog : List Nat}
    (heq : copy_and_hash h fs sp dp = (.ok r, prog)) :
    r.sourceHash = h fs.sourceChunks.flatten ∧
    r.destHash = h (fs.corrupt fs.sourceChunks.flatten) ∧
    r.verified = true ∧
    r.sourceHash = r.destHash := by
  simp only [copy_and_hash] at heq
  split at heq
  · simp at heq
  · split at heq
    · simp at heq
    · split at heq
      · simp at heq
      · split at heq
        · simp at heq
        · split at heq
          · simp at heq
          · split at heq
            · simp at heq
            · split at heq
              next hver =>
                simp only [Prod.mk.injEq, Except.ok.injEq] at heq
                obtain ⟨hr, -⟩ := heq
                subst hr
                exact ⟨rfl, rfl, hver, eq_of_beq hver⟩
              next => simp at heq

/-!
## Claim C1
-/

/-- Claim C1: for every copy that `copy_job` reports as successful, the
source and destination hashes in the `CopyResult` are equal, the
destination hash is the hash of the destination file's on-disk bytes as
independently re-read after the write, the `verified` flag is true, and the
job record is persisted with `status = complete` and both hashes set and
equal; in particular `copy_job` never returns success when the two hashes
differ. -/
theorem copy_job_success_round_trip
    (h : List Nat → String) (faults : DbFaults) (fs : FsModel)
    (s : Store) (jobId : Nat) (r : CopyResult) (s' : Store)
    (hrun : copy_job h faults fs s jobId = (.ok r, s')) :
    r.sourceHash = r.destHash ∧
    r.sourceHash = h fs.sourceChunks.flatten ∧
    r.destHash = h (fs.corrupt fs.sourceChunks.flatten) ∧
    r.verified = true ∧
    ∃ j, s'.getJob jobId = some j ∧ j.status = .complete ∧
      j.sourceHash = some r.sourceHash ∧ j.destHash = some r.destHash ∧
      j.sourceHash = j.destHash := by
  simp only [copy_job] at hrun
  split at hrun
  · simp at hrun
  next job hget =>
    split at hrun
    · simp at hrun
    next hft =>
      split at hrun
      next r0 prog hpipe =>
        split at hrun
        · simp at hrun
        next hfc =>
          simp only [Prod.mk.injEq, Except.ok.injEq] at hrun
          obtain ⟨hr, hs⟩ := hrun
          subst hr
          obtain ⟨h1, h2, h3, h4⟩ := copy_and_hash_ok hpipe
          refine ⟨h4, h1, h2, h3, ?_⟩
          have hbase : ((s.updateJob jobId fun j => { j with status := .transferring }).getJob jobId).isSome = true := by
            rw [getJob_updateJob_self, hget]
            rfl
          have hs2 := applyProgress_getJob_isSome jobId faults.progress 0 prog _ hbase
          obtain ⟨x, hx⟩ := Option.isSome_iff_exists.mp hs2
          refine ⟨{ x with
                      status := JobStatus.complete,
                      bytesTransferred := r0.bytesCopied,
                      sourceHash := some r0.sourceHash,
                      destHash := some r0.destHash }, ?_, rfl, rfl, rfl, by rw [h4]⟩
          rw [← hs, getJob_updateJob_self, hx]
          rfl
      next e prog hpipe =>
        split at hrun
        · simp at hrun
        · simp at hrun

/-- A hash function for concrete witnesses: the decimal rendering of the
byte list. -/
def hashRender : List Nat → String := fun l => toString l

/-- A fault-free filesystem behaviour with a two-chunk source and a
faithful disk. -/
def fsOk : FsModel :=
  { createDirErr := none, openSourceErr := none, sourceChunks := [[1, 2], [3]],
    createDestErr := none, readErr := none, writeErr := none, flushErr := none,
    corrupt := id, reopenDestErr := none }

/-- A fresh pending job for concrete witnesses. -/
def jobA : Job :=
  { intent := 0, sourcePath := "/s/a", destPath := "/d/a", destination := 1,
    size := 3, bytesTransferred := 0, status := .pending, attempts := 0,
    maxAttempts := 3, lastError := none, errorKind := none,
    sourceHash := none, destHash := none }

/-- A store holding just that job, under id 10. -/
def storeA : Store :=
  { intents := [], locations := [], jobs := [(10, jobA)], reviews := [], nextId := 11 }

/-- Witness for C1: `copy_job` on a concrete fault-free run returns success
and the theorem's conclusion holds there. -/
theorem copy_job_success_round_trip_witness :
    (CopyResult.sourceHash ⟨3, "[1, 2, 3]", "[1, 2, 3]", true⟩ =
       CopyResult.destHash ⟨3, "[1, 2, 3]", "[1, 2, 3]", true⟩) ∧
    (CopyResult.sourceHash ⟨3, "[1, 2, 3]", "[1, 2, 3]", true⟩ =
       hashRender fsOk.sourceChunks.flatten) ∧
    (CopyResult.destHash ⟨3, "[1, 2, 3]", "[1, 2, 3]", true⟩ =
       hashRender (fsOk.corrupt fsOk.sourceChunks.flatten)) ∧
    (CopyResult.verified ⟨3, "[1, 2, 3]", "[1, 2, 3]", true⟩ = true) ∧
    ∃ j, Store.getJob
        { intents := [], locations := [],
          jobs := [(10, { jobA with
                            status := .complete,
                            bytesTransferred := 3,
                            sourceHash := some "[1, 2, 3]",
                            destHash := some "[1, 2, 3]" })],
          reviews := [], nextId := 11 } 10 = some j ∧
      j.status = .complete ∧
      j.sourceHash = some (CopyResult.sourceHash ⟨3, "[1, 2, 3]", "[1, 2, 3]", true⟩) ∧
      j.destHash = some (CopyResult.destHash ⟨3, "[1, 2, 3]", "[1, 2, 3]", true⟩) ∧
      j.sourceHash = j.destHash :=
  copy_job_success_round_trip hashRender noFaults fsOk storeA 10
    ⟨3, "[1, 2, 3]", "[1, 2, 3]", true⟩
    { intents := [], locations := [],
      jobs := [(10, { jobA with
                        status := .complete,
                        bytesTransferred := 3,
                        sourceHash := some "[1, 2, 3]",
                        destHash := some "[1, 2, 3]" })],
      reviews := [], nextId := 11 }
    (by rfl)

/-!
## Claim C2
-/

/-- Claim C2: on every failed copy attempt (fault-free Job Store),
`copy_job` increments the job's attempts by exactly one and persists the
error kind and message on the job in both branches; if the error is
retryable and the incremented attempts is still below `max_attempts` the
status becomes `pending`, otherwise the status becomes `needs_review` and
exactly one review item is appended carrying the error kind, message, both
paths, and the kind-specific ordered resolution options; the options table
is source_missing ↦ [skip, rescan], permission_denied/disk_full/io_error ↦
[retry, skip], hash_mismatch ↦ [retry, skip, accept], and [skip] for any
unclassified kind. -/
theorem copy_job_failure_handling
    (h : List Nat → String) (fs : FsModel) (s : Store) (jobId : Nat)
    (job : Job) (e : CopyError) (s' : Store)
    (hget : s.getJob jobId = some job)
    (hrun : copy_job h noFaults fs s jobId = (.error e, s')) :
    (∃ j, s'.getJob jobId = some j ∧
       j.attempts = job.attempts + 1 ∧
       j.lastError = some e.message ∧
       j.errorKind = some (classify_error e) ∧
       ((e.is_retryable = true ∧ job.attempts + 1 < job.maxAttempts ∧
           j.status = .pending ∧ s'.reviews = s.reviews) ∨
        (¬(e.is_retryable = true ∧ job.attempts + 1 < job.maxAttempts) ∧
           j.status = .needsReview ∧
           s'.reviews = s.reviews ++
             [{ job := jobId, intent := job.intent,
                errorKind := classify_error e, errorMessage := e.message,
                sourcePath := job.sourcePath, destPath := job.destPath,
                options := resolution_options (classify_error e) }]))) ∧
    resolution_options "source_missing" = ["skip", "rescan"] ∧
    resolution_options "permission_denied" = ["retry", "skip"] ∧
    resolution_options "disk_full" = ["retry", "skip"] ∧
    resolution_options "io_error" = ["retry", "skip"] ∧
    resolution_options "hash_mismatch" = ["retry", "skip", "accept"] ∧
    (∀ k, k ≠ "source_missing" → k ≠ "permission_denied" → k ≠ "disk_full" →
       k ≠ "io_error" → k ≠ "hash_mismatch" → resolution_options k = ["skip"]) := by
  refine ⟨?_, rfl, rfl, rfl, rfl, rfl, ?_⟩
  · simp only [copy_job, hget] at hrun
    split at hrun
    next hft => simp [noFaults] at hft
    next hft =>
      split at hrun
      next r0 prog hpipe =>
        split at hrun
        next hfc => simp [noFaults] at hfc
        next hfc => simp at hrun
      next e0 prog hpipe =>
        split at hrun
        next hff => simp [noFaults] at hff
        next hff =>
          have hbase : ((s.updateJob jobId fun j =>
              { j with status := JobStatus.transferring }).getJob jobId).isSome = true := by
            rw [getJob_updateJob_self, hget]
            rfl
          have hs2 := applyProgress_getJob_isSome jobId noFaults.progress 0 prog _ hbase
          obtain ⟨x, hx⟩ := Option.isSome_iff_exists.mp hs2
          split at hrun
          next hcond =>
            split at hrun
            next hrev =>
              exfalso
              simp at hrev
            next hrev =>
              simp only [Prod.mk.injEq, Except.error.injEq] at hrun
              obtain ⟨he, hs⟩ := hrun
              subst he
              refine ⟨{ x with
                          status := JobStatus.pending,
                          attempts := job.attempts + 1,
                          lastError := some e0.message,
                          errorKind := some (classify_error e0) }, ?_, rfl, rfl, rfl,
                      .inl ⟨hcond.1, hcond.2, rfl, ?_⟩⟩
              · rw [← hs, getJob_updateJob_self, hx]
                rfl
              · rw [← hs, updateJob_reviews, applyProgress_reviews, updateJob_reviews]
          next hcond =>
            split at hrun
            next hrev =>
              simp only [Prod.mk.injEq, Except.error.injEq] at hrun
              obtain ⟨he, hs⟩ := hrun
              subst he
              refine ⟨{ x with
                          status := JobStatus.needsReview,
                          attempts := job.attempts + 1,
                          lastError := some e0.message,
                          errorKind := some (classify_error e0) }, ?_, rfl, rfl, rfl,
                      .inr ⟨hcond, rfl, ?_⟩⟩
              · rw [← hs, getJob_addReview, getJob_updateJob_self, hx]
                rfl
              · rw [← hs, reviews_addReview, updateJob_reviews, applyProgress_reviews,
                    updateJob_reviews]
            next hrev =>
              exfalso
              exact hrev ⟨rfl, rfl⟩
  · intro k h1 h2 h3 h4 h5
    unfold resolution_options
    split <;> simp_all

/-- A filesystem behaviour where opening the source fails with not-found. -/
def fsMissing : FsModel :=
  { createDirErr := none, openSourceErr := some ⟨.notFound, "nf"⟩, sourceChunks := [],
    createDestErr := none, readErr := none, writeErr := none, flushErr := none,
    corrupt := id, reopenDestErr := none }

/-- The store after the concrete failed run of C2's witness. -/
def storeA_fail : Store :=
  { intents := [], locations := [],
    jobs := [(10, { jobA with
                      status := .needsReview,
                      attempts := 1,
                      lastError := some "source file not found: /s/a",
                      errorKind := some "source_missing" })],
    reviews := [{ job := 10, intent := 0, errorKind := "source_missing",
                  errorMessage := "source file not found: /s/a",
                  sourcePath := "/s/a", destPath := "/d/a",
                  options := ["skip", "rescan"] }],
    nextId := 11 }

/-- Witness for C2: a concrete non-retryable failure (missing source) hits
the escalation branch with the review item appended. -/
theorem copy_job_failure_handling_witness :
    ∃ j, storeA_fail.getJob 10 = some j ∧
      j.attempts = jobA.attempts + 1 ∧
      j.lastError = some (CopyError.sourceNotFound "/s/a").message ∧
      j.errorKind = some (classify_error (.sourceNotFound "/s/a")) ∧
      (((CopyError.sourceNotFound "/s/a").is_retryable = true ∧
          jobA.attempts + 1 < jobA.maxAttempts ∧ j.status = .pending ∧
          storeA_fail.reviews = storeA.reviews) ∨
       (¬((CopyError.sourceNotFound "/s/a").is_retryable = true ∧
            jobA.attempts + 1 < jobA.maxAttempts) ∧
          j.status = .needsReview ∧
          storeA_fail.reviews = storeA.reviews ++
            [{ job := 10, intent := jobA.intent,
               errorKind := classify_error (.sourceNotFound "/s/a"),
               errorMessage := (CopyError.sourceNotFound "/s/a").message,
               sourcePath := jobA.sourcePath, destPath := jobA.destPath,
               options := resolution_options (classify_error (.sourceNotFound "/s/a")) }])) :=
  (copy_job_failure_handling hashRender fsMissing storeA 10 jobA
    (.sourceNotFound "/s/a") storeA_fail rfl rfl).1

/-!
## Claim C8
-/

/-- Fault injection that fails only the review-item creation write. -/
def reviewFault : DbFaults :=
  { setTransferring := false, setComplete := false, setFailure := false,
    createReview := true, progress := fun _ => false }

/-- Counterexample for C8: the claim says the periodic progress update is
the single persistence write whose failure is swallowed and that ReviewItem
creation propagates its failure as a database error.  In the code the
`CREATE review_item` result is discarded (`let _ = ...`): on a concrete
escalating failure whose review write faults, `copy_job` still returns the
original copy error — not a database error — and the store simply lacks
the review item that the fault-free run creates. -/
theorem copy_job_review_write_failure_swallowed :
    copy_job hashRender reviewFault fsMissing storeA 10 =
      (.error (.sourceNotFound "/s/a"), { storeA_fail with reviews := [] }) ∧
    copy_job hashRender noFaults fsMissing storeA 10 =
      (.error (.sourceNotFound "/s/a"), storeA_fail) :=
  ⟨rfl, rfl⟩

/-- Claim C8 (amended): within the Copier, the periodic progress update
AND the review-item creation are the two Job-Store writes whose failures
are swallowed (neither changes `copy_job`'s returned result); the
status-transition and final-result writes (set-transferring, set-complete,
set-failure-fields) each propagate their failure to the caller as a
database error. -/
theorem copy_job_write_failure_policy :
    (∀ (h : List Nat → String) (fs : FsModel) (s : Store) (jobId : Nat)
       (pf : Nat → Bool) (rf : Bool),
       (copy_job h { setTransferring := false, setComplete := false,
                     setFailure := false, createReview := rf, progress := pf }
          fs s jobId).1
         = (copy_job h noFaults fs s jobId).1) ∧
    (∀ (h : List Nat → String) (faults : DbFaults) (fs : FsModel) (s : Store)
       (jobId : Nat) (job : Job),
       faults.setTransferring = true → s.getJob jobId = some job →
       copy_job h faults fs s jobId = (.error (.dbError "db"), s)) ∧
    (∀ (h : List Nat → String) (faults : DbFaults) (fs : FsModel) (s : Store)
       (jobId : Nat) (job : Job) (r : CopyResult) (prog : List Nat),
       faults.setTransferring = false → faults.setComplete = true →
       s.getJob jobId = some job →
       copy_and_hash h fs job.sourcePath job.destPath = (.ok r, prog) →
       (copy_job h faults fs s jobId).1 = .error (.dbError "db")) ∧
    (∀ (h : List Nat → String) (faults : DbFaults) (fs : FsModel) (s : Store)
       (jobId : Nat) (job : Job) (e : CopyError) (prog : List Nat),
       faults.setTransferring = false → faults.setFailure = true →
       s.getJob jobId = some job →
       copy_and_hash h fs job.sourcePath job.destPath = (.error e, prog) →
       (copy_job h faults fs s jobId).1 = .error (.dbError "db")) := by
  refine ⟨?_, ?_, ?_, ?_⟩
  · intro h fs s jobId pf rf
    cases hget : s.getJob jobId with
    | none => simp [copy_job, hget]
    | some job =>
      cases hpipe : copy_and_hash h fs job.sourcePath job.destPath with
      | mk result prog =>
        cases result with
        | ok r => simp [copy_job, hget, hpipe, noFaults]
        | error e => simp [copy_job, hget, hpipe, noFaults]
  · intro h faults fs s jobId job hft hget
    simp [copy_job, hget, hft]
  · intro h faults fs s jobId job r prog hft hfc hget hpipe
    simp [copy_job, hget, hpipe, hft, hfc]
  · intro h faults fs s jobId job e prog hft hff hget hpipe
    simp [copy_job, hget, hpipe, hft, hff]

/-- All-on fault injection for the propagation conjuncts. -/
def allFaults : DbFaults :=
  { setTransferring := true, setComplete := true, setFailure := true,
    createReview := true, progress := fun _ => true }

/-- Witness for the amended C8: each conjunct applied at concrete inputs. -/
theorem copy_job_write_failure_policy_witness :
    ((copy_job hashRender reviewFault fsMissing storeA 10).1
       = (copy_job hashRender noFaults fsMissing storeA 10).1) ∧
    (copy_job hashRender allFaults fsMissing storeA 10
       = (.error (.dbError "db"), storeA)) ∧
    ((copy_job hashRender { allFaults with setTransferring := false }
        fsOk storeA 10).1 = .error (.dbError "db")) ∧
    ((copy_job hashRender { allFaults with setTransferring := false }
        fsMissing storeA 10).1 = .error (.dbError "db")) :=
  ⟨copy_job_write_failure_policy.1 hashRender fsMissing storeA 10
     (fun _ => false) true,
   copy_job_write_failure_policy.2.1 hashRender allFaults fsMissing storeA 10
     jobA rfl rfl,
   copy_job_write_failure_policy.2.2.1 hashRender
     { allFaults with setTransferring := false } fsOk storeA 10 jobA
     ⟨3, "[1, 2, 3]", "[1, 2, 3]", true⟩ [] rfl rfl rfl rfl,
   copy_job_write_failure_policy.2.2.2 hashRender
     { allFaults with setTransferring := false } fsMissing storeA 10 jobA
     (.sourceNotFound "/s/a") [] rfl rfl rfl rfl⟩

/-!
## Scanner lemmas
-/

theorem getIntent_updateIntent_self (s : Store) (id : Nat) (f : Intent → Intent) :
    (s.updateIntent id f).getIntent id = (s.getIntent id).map f := by
  unfold Store.getIntent Store.updateIntent
  rw [find_update]
  cases hf : s.intents.find? (fun p => p.1 == id) <;> simp

theorem jobs_updateIntent (s : Store) (id : Nat) (f : Intent → Intent) :
    (s.updateIntent id f).jobs = s.jobs := rfl

theorem locations_updateIntent (s : Store) (id : Nat) (f : Intent → Intent) :
    (s.updateIntent id f).locations = s.locations := rfl

theorem reviews_updateIntent (s : Store) (id : Nat) (f : Intent → Intent) :
    (s.updateIntent id f).reviews = s.reviews := rfl

theorem create_jobs_for_dest_spec (intentId : Nat) (base : String) (d : Nat × String) :
    ∀ (entries : List (String × Nat)) (acc : Nat × Store),
      ∃ newJobs : List (Nat × Job),
        (create_jobs_for_dest intentId base d entries acc).1 = acc.1 + entries.length ∧
        (create_jobs_for_dest intentId base d entries acc).2.jobs = acc.2.jobs ++ newJobs ∧
        newJobs.map (fun p => p.2) = entries.map (new_transfer_job intentId base d) ∧
        newJobs.length = entries.length ∧
        (create_jobs_for_dest intentId base d entries acc).2.intents = acc.2.intents ∧
        (create_jobs_for_dest intentId base d entries acc).2.locations = acc.2.locations ∧
        (create_jobs_for_dest intentId base d entries acc).2.reviews = acc.2.reviews := by
  intro entries
  induction entries with
  | nil => intro acc; exact ⟨[], rfl, by simp [create_jobs_for_dest], rfl, rfl, rfl, rfl, rfl⟩
  | cons e rest ih =>
    intro acc
    obtain ⟨nj, h1, h2, h3, hlen, h4, h5, h6⟩ := ih
      (acc.1 + 1,
       { acc.2 with
           jobs := acc.2.jobs ++ [(acc.2.nextId, new_transfer_job intentId base d e)],
           nextId := acc.2.nextId + 1 })
    refine ⟨(acc.2.nextId, new_transfer_job intentId base d e) :: nj, ?_, ?_, ?_, ?_, ?_, ?_, ?_⟩
    · show (create_jobs_for_dest intentId base d rest _).1 = _
      rw [h1]
      simp only [List.length_cons]
      omega
    · show (create_jobs_for_dest intentId base d rest _).2.jobs = _
      rw [h2]
      simp
    · simpa using h3
    · simp [hlen]
    · show (create_jobs_for_dest intentId base d rest _).2.intents = _
      rw [h4]
    · show (create_jobs_for_dest intentId base d rest _).2.locations = _
      rw [h5]
    · show (create_jobs_for_dest intentId base d rest _).2.reviews = _
      rw [h6]

theorem create_jobs_loop_spec (intentId : Nat) (base : String)
    (entries : List (String × Nat)) :
    ∀ (dests : List (Nat × String)) (acc : Nat × Store),
      ∃ newJobs : List (Nat × Job),
        (create_jobs_loop intentId base entries dests acc).1
          = acc.1 + dests.length * entries.length ∧
        (create_jobs_loop intentId base entries dests acc).2.jobs
          = acc.2.jobs ++ newJobs ∧
        newJobs.map (fun p => p.2)
          = (dests.map (fun d => entries.map (new_transfer_job intentId base d))).flatten ∧
        newJobs.length = dests.length * entries.length ∧
        (create_jobs_loop intentId base entries dests acc).2.intents = acc.2.intents ∧
        (create_jobs_loop intentId base entries dests acc).2.locations = acc.2.locations ∧
        (create_jobs_loop intentId base entries dests acc).2.reviews = acc.2.reviews := by
  intro dests
  induction dests with
  | nil => intro acc; exact ⟨[], by simp [create_jobs_loop], by simp [create_jobs_loop], rfl,
                            by simp, rfl, rfl, rfl⟩
  | cons d rest ih =>
    intro acc
    obtain ⟨nj1, g1, g2, g3, glen, g4, g5, g6⟩ :=
      create_jobs_for_dest_spec intentId base d entries acc
    obtain ⟨nj2, h1, h2, h3, hlen, h4, h5, h6⟩ :=
      ih (create_jobs_for_dest intentId base d entries acc)
    refine ⟨nj1 ++ nj2, ?_, ?_, ?_, ?_, ?_, ?_, ?_⟩
    · show (create_jobs_loop intentId base entries rest _).1 = _
      rw [h1, g1]
      simp only [List.length_cons]
      ring
    · show (create_jobs_loop intentId base entries rest _).2.jobs = _
      rw [h2, g2]
      simp
    · simp [g3, h3]
    · simp only [List.length_append, List.length_cons, glen, hlen]
      ring
    · show (create_jobs_loop intentId base entries rest _).2.intents = _
      rw [h4, g4]
    · show (create_jobs_loop intentId base entries rest _).2.locations = _
      rw [h5, g5]
    · show (create_jobs_loop intentId base entries rest _).2.reviews = _
      rw [h6, g6]

theorem new_transfer_job_fields (intentId : Nat) (base : String)
    (d : Nat × String) (e : String × Nat) :
    (new_transfer_job intentId base d e).status = .pending ∧
    (new_transfer_job intentId base d e).attempts = 0 ∧
    (new_transfer_job intentId base d e).intent = intentId := ⟨rfl, rfl, rfl⟩

theorem getIntent_eq_of_intents_eq {s t : Store} (h : s.intents = t.intents) (id : Nat) :
    s.getIntent id = t.getIntent id := by
  unfold Store.getIntent
  rw [h]

/-!
## Claim C3
-/

/-- Claim C3: for every source directory tree and every intent with `D`
resolvable destinations, `scan_intent` creates exactly one transfer job
per (regular file, destination) pair — each with `status = pending` and
`attempts = 0` — and persists on the intent `total_files = files × D`,
`total_bytes = (sum of file sizes) × D`, and `status = complete` when zero
jobs were created, else `transferring`. -/
theorem scan_intent_cartesian_product
    (s : Store) (intentId : Nat) (intent : Intent) (fsAt : String → RootFs)
    (sourcePath : String) (entries : List (String × Nat)) (skipped : Nat)
    (dests : List (Nat × String))
    (hint : s.getIntent intentId = some intent)
    (hsrc : (s.locations.find? (fun p => p.1 == intent.source)).map (fun p => p.2)
              = some sourcePath)
    (hwalk : walk_source (fsAt sourcePath) sourcePath = .ok (entries, skipped))
    (hdest : resolve_dest_paths s.locations intent.destinations = .ok dests) :
    ∃ res s',
      scan_intent s intentId fsAt = .ok (res, s') ∧
      res.jobsCreated = entries.length * dests.length ∧
      res.filesFound = entries.length ∧
      res.totalBytes = (entries.map (fun e => e.2)).sum ∧
      res.skippedEntries = skipped ∧
      (∃ newJobs, s'.jobs = s.jobs ++ newJobs ∧
        newJobs.map (fun p => p.2)
          = (dests.map (fun d => entries.map (new_transfer_job intentId sourcePath d))).flatten ∧
        newJobs.length = entries.length * dests.length ∧
        (∀ p ∈ newJobs, p.2.status = JobStatus.pending ∧ p.2.attempts = 0 ∧
           p.2.intent = intentId)) ∧
      (∃ i, s'.getIntent intentId = some i ∧
        i.totalFiles = entries.length * dests.length ∧
        i.totalBytes = (entries.map (fun e => e.2)).sum * dests.length ∧
        i.status = (if entries.length * dests.length = 0 then IntentStatus.complete
                    else IntentStatus.transferring)) := by
  obtain ⟨nj, c1, c2, c3, clen, c4, c5, c6⟩ :=
    create_jobs_loop_spec intentId sourcePath entries dests
      (0, s.updateIntent intentId (fun i => { i with status := .scanning }))
  refine ⟨{ filesFound := entries.length,
            totalBytes := (entries.map (fun e => e.2)).sum,
            jobsCreated := (create_jobs_loop intentId sourcePath entries dests
              (0, s.updateIntent intentId (fun i => { i with status := .scanning }))).1,
            skippedEntries := skipped },
          (create_jobs_loop intentId sourcePath entries dests
            (0, s.updateIntent intentId
                  (fun i => { i with status := .scanning }))).2.updateIntent intentId
            (fun i =>
              { i with
                  status := (if entries.length * dests.length = 0 then IntentStatus.complete
                             else IntentStatus.transferring),
                  totalFiles := entries.length * dests.length,
                  totalBytes := (entries.map (fun e => e.2)).sum * dests.length }),
          ?_, ?_, rfl, rfl, rfl, ⟨nj, ?_, c3, ?_, ?_⟩,
          ⟨{ intent with
               status := (if entries.length * dests.length = 0 then IntentStatus.complete
                          else IntentStatus.transferring),
               totalFiles := entries.length * dests.length,
               totalBytes := (entries.map (fun e => e.2)).sum * dests.length },
           ?_, rfl, rfl, rfl⟩⟩
  · show scan_intent s intentId fsAt = .ok (_, _)
    simp only [scan_intent, hint, locations_updateIntent, hsrc, hwalk, hdest,
               create_transfer_jobs]
  · show (create_jobs_loop intentId sourcePath entries dests _).1 = _
    rw [c1, Nat.zero_add, Nat.mul_comm]
  · show ((create_jobs_loop intentId sourcePath entries dests _).2.updateIntent
      intentId _).jobs = _
    rw [jobs_updateIntent, c2]
    rfl
  · rw [clen, Nat.mul_comm]
  · intro p hp
    have hmem : p.2 ∈ nj.map (fun q => q.2) := List.mem_map_of_mem _ hp
    rw [c3] at hmem
    obtain ⟨l, hl, hpl⟩ := List.mem_flatten.mp hmem
    obtain ⟨d, hd, rfl⟩ := List.mem_map.mp hl
    obtain ⟨e, he, hpe⟩ := List.mem_map.mp hpl
    rw [← hpe]
    exact ⟨rfl, rfl, rfl⟩
  · rw [getIntent_updateIntent_self, getIntent_eq_of_intents_eq c4,
        getIntent_updateIntent_self, hint]
    rfl

/-- The concrete source tree of the spec's scanner-determinism scenario:
`root.txt` (5 bytes), `subdir/mid.txt` (2 bytes),
`subdir/deep/bottom.txt` (10 bytes), and a symlink. -/
def treeC3 : List FsEntry :=
  [.file "root.txt" 5,
   .dir "subdir" [.file "mid.txt" 2, .dir "deep" [.file "bottom.txt" 10]],
   .symlink "link"]

/-- The scenario's intent: source location 1, destinations 2 and 3. -/
def intentC3 : Intent :=
  { source := 1, destinations := [2, 3], status := .idle,
    totalFiles := 0, totalBytes := 0, completedFiles := 0 }

/-- The scenario's store. -/
def storeC3 : Store :=
  { intents := [(0, intentC3)],
    locations := [(1, "/src"), (2, "/d1"), (3, "/d2")],
    jobs := [], reviews := [], nextId := 100 }

/-- The scenario's filesystem: the source path holds the tree. -/
def fsC3 : String → RootFs :=
  fun p => if p = "/src" then .dir treeC3 else .missing

/-- Witness for C3: the spec's concrete scenario yields exactly 6 jobs (3
files × 2 destinations, and none for the symlink), `total_files = 6`,
`total_bytes = 34`, the symlink counted as the one skipped entry. -/
theorem scan_intent_cartesian_product_witness :
    ∃ res s', scan_intent storeC3 0 fsC3 = .ok (res, s') ∧
      res.jobsCreated = 6 ∧
      res.filesFound = 3 ∧
      res.totalBytes = 17 ∧
      res.skippedEntries = 1 ∧
      (∃ newJobs, s'.jobs = storeC3.jobs ++ newJobs ∧
        newJobs.map (fun p => p.2) =
          [new_transfer_job 0 "/src" (2, "/d1") ("root.txt", 5),
           new_transfer_job 0 "/src" (2, "/d1") ("subdir/mid.txt", 2),
           new_transfer_job 0 "/src" (2, "/d1") ("subdir/deep/bottom.txt", 10),
           new_transfer_job 0 "/src" (3, "/d2") ("root.txt", 5),
           new_transfer_job 0 "/src" (3, "/d2") ("subdir/mid.txt", 2),
           new_transfer_job 0 "/src" (3, "/d2") ("subdir/deep/bottom.txt", 10)] ∧
        newJobs.length = 6 ∧
        (∀ p ∈ newJobs, p.2.status = JobStatus.pending ∧ p.2.attempts = 0 ∧
           p.2.intent = 0)) ∧
      (∃ i, s'.getIntent 0 = some i ∧ i.totalFiles = 6 ∧ i.totalBytes = 34 ∧
        i.status = IntentStatus.transferring) :=
  scan_intent_cartesian_product storeC3 0 intentC3 fsC3 "/src"
    [("root.txt", 5), ("subdir/mid.txt", 2), ("subdir/deep/bottom.txt", 10)] 1
    [(2, "/d1"), (3, "/d2")] rfl rfl rfl rfl

/-!
## Claim C7
-/

/-- Counterexample for C7: the claim says a walk-level I/O error that is
not a single-entry skip aborts the scan with a walk-error.  In the code
every error yielded by the walk iterator — here a directory whose contents
cannot be read, which silently drops the whole subtree, not just one entry
— is handled by `skipped += 1; continue`: the scan finishes successfully
with one skipped entry and never aborts. -/
theorem walk_source_unreadable_dir_not_abort :
    walk_source (.dir [.unreadableDir "bad", .file "a.txt" 3]) "/s"
      = .ok ([("a.txt", 3)], 1) := rfl

/-- Claim C7 (amended): every error yielded during the directory walk —
unreadable entries, symlinks, and directory-read failures alike — is
recorded in the skipped count and the scan continues; `walk_source` never
returns the walk-error kind, and the only aborts are the precondition
failures source-path-not-exists and source-path-not-a-directory. -/
theorem walk_source_error_policy :
    (∀ (root : RootFs) (p : String),
       (∃ res, walk_source root p = .ok res) ∨
       walk_source root p = .error (.sourcePathNotExists p) ∨
       walk_source root p = .error (.sourcePathNotDir p)) ∧
    walk_source (.dir [.symlink "l", .unreadableFile "u", .unreadableDir "d",
                       .file "f.txt" 2]) "/s"
      = .ok ([("f.txt", 2)], 3) := by
  constructor
  · intro root p
    cases root with
    | missing => exact .inr (.inl rfl)
    | notDir => exact .inr (.inr rfl)
    | dir es => exact .inl ⟨_, rfl⟩
  · rfl

/-!
## Scheduler lemmas
-/

theorem find_map_key_preserving {α : Type} (l : List (Nat × α))
    (g : Nat × α → Nat × α) (hg : ∀ p, (g p).1 = p.1) (id : Nat) :
    (l.map g).find? (fun p => p.1 == id) = (l.find? (fun p => p.1 == id)).map g := by
  induction l with
  | nil => rfl
  | cons a rest ih =>
    simp only [List.map_cons]
    cases hha : (a.1 == id) with
    | true =>
      have hga : ((g a).1 == id) = true := by rw [hg a, hha]
      simp [List.find?_cons, hga, hha]
    | false =>
      have hga : ((g a).1 == id) = false := by rw [hg a, hha]
      simpa [List.find?_cons, hga, hha] using ih

theorem intents_recover_jobs (s : Store) (intentId : Nat) :
    (recover_jobs s intentId).intents = s.intents := rfl

theorem getIntent_recover_jobs (s : Store) (intentId id : Nat) :
    (recover_jobs s intentId).getIntent id = s.getIntent id := rfl

theorem getJob_recover_jobs (s : Store) (intentId jobId : Nat) (j : Job)
    (hget : s.getJob jobId = some j) :
    (recover_jobs s intentId).getJob jobId
      = some (if j.intent == intentId && j.status == JobStatus.transferring then
                { j with status := .pending, bytesTransferred := 0 }
              else j) := by
  unfold Store.getJob at hget
  unfold Store.getJob recover_jobs
  rw [find_map_key_preserving]
  · obtain ⟨p, hp, hpj⟩ := Option.map_eq_some'.mp hget
    subst hpj
    rw [hp]
    simp only [Option.map_some]
    cases hc : (p.2.intent == intentId && p.2.status == JobStatus.transferring) with
    | false =>
      simp only [Bool.and_eq_false_iff, beq_eq_false_iff_ne, ne_eq] at hc
      rcases hc with hc | hc <;> simp [hc]
    | true =>
      simp only [Bool.and_eq_true, beq_iff_eq] at hc
      simp [hc.1, hc.2]
  · intro p
    cases hc : (p.2.intent == intentId && p.2.status == JobStatus.transferring) <;> simp [hc]

/-!
## Claim C4
-/

/-- Claim C4: on every invocation, `run_intent` first runs the recovery
step — before any dispatch — and that step resets every job of the intent
with `status = transferring` to `status = pending` with
`bytes_transferred = 0`, leaving its other fields unchanged. -/
theorem run_intent_crash_recovery
    (env : Nat → CopyEnv) (fuel : Nat) (s : Store) (intentId : Nat) (intent : Intent)
    (hint : s.getIntent intentId = some intent) :
    run_intent env fuel s intentId
      = (match dispatch_loop env intentId fuel (recover_jobs s intentId) with
         | none => none
         | some s2 => some (.ok (compute_result s2 intentId,
             finalize_intent s2 intentId (compute_result s2 intentId)))) ∧
    (∀ jobId j, s.getJob jobId = some j → j.intent = intentId →
       j.status = .transferring →
       (recover_jobs s intentId).getJob jobId
         = some { j with status := .pending, bytesTransferred := 0 }) := by
  constructor
  · simp only [run_intent, hint]
  · intro jobId j hget hJint hJstat
    rw [getJob_recover_jobs s intentId jobId j hget]
    rw [hJint, hJstat]
    simp

/-- A trivial per-job copy environment for concrete scheduler witnesses. -/
def envTrivial : Nat → CopyEnv := fun _ => ⟨hashRender, noFaults, fsOk⟩

/-- A job of intent 0 left in `transferring` by a crash. -/
def jobCrashed : Job :=
  { intent := 0, sourcePath := "/s/c", destPath := "/d/c", destination := 1,
    size := 7, bytesTransferred := 4, status := .transferring, attempts := 1,
    maxAttempts := 3, lastError := none, errorKind := none,
    sourceHash := none, destHash := none }

/-- A store with one crashed job under intent 0. -/
def storeCrashed : Store :=
  { intents := [(0, intentC3)], locations := [], jobs := [(5, jobCrashed)],
    reviews := [], nextId := 6 }

/-- Witness for C4 at a concrete crashed store. -/
theorem run_intent_crash_recovery_witness :
    (run_intent envTrivial 0 storeCrashed 0
      = (match dispatch_loop envTrivial 0 0 (recover_jobs storeCrashed 0) with
         | none => none
         | some s2 => some (.ok (compute_result s2 0,
             finalize_intent s2 0 (compute_result s2 0))))) ∧
    (∀ jobId j, storeCrashed.getJob jobId = some j → j.intent = 0 →
       j.status = .transferring →
       (recover_jobs storeCrashed 0).getJob jobId
         = some { j with status := .pending, bytesTransferred := 0 }) :=
  run_intent_crash_recovery envTrivial 0 storeCrashed 0 intentC3 rfl

theorem copy_job_intents (h : List Nat → String) (faults : DbFaults) (fs : FsModel)
    (s : Store) (jobId : Nat) :
    (copy_job h faults fs s jobId).2.intents = s.intents := by
  simp only [copy_job]
  repeat' split
  all_goals simp [applyProgress_intents, updateJob_intents, intents_addReview]

theorem run_batch_intents (env : Nat → CopyEnv) :
    ∀ (ids : List Nat) (s : Store), (run_batch env ids s).intents = s.intents := by
  intro ids
  induction ids with
  | nil => intro s; rfl
  | cons id rest ih =>
    intro s
    simp only [run_batch]
    rw [ih, copy_job_intents]

theorem dispatch_loop_intents (env : Nat → CopyEnv) (intentId : Nat) :
    ∀ (fuel : Nat) (s s2 : Store), dispatch_loop env intentId fuel s = some s2 →
      s2.intents = s.intents := by
  intro fuel
  induction fuel with
  | zero => intro s s2 hd; simp [dispatch_loop] at hd
  | succ n ih =>
    intro s s2 hd
    simp only [dispatch_loop] at hd
    split at hd
    · rw [Option.some_inj.mp hd]
    · rw [ih _ _ hd, run_batch_intents]

theorem dispatch_loop_no_pending (env : Nat → CopyEnv) (intentId : Nat) :
    ∀ (fuel : Nat) (s s2 : Store), dispatch_loop env intentId fuel s = some s2 →
      get_pending_jobs s2 intentId = [] := by
  intro fuel
  induction fuel with
  | zero => intro s s2 hd; simp [dispatch_loop] at hd
  | succ n ih =>
    intro s s2 hd
    simp only [dispatch_loop] at hd
    split at hd
    next hempty =>
      rw [← Option.some_inj.mp hd]
      exact List.isEmpty_iff.mp hempty
    next => exact ih _ _ hd

theorem jobs_finalize_intent (s : Store) (intentId : Nat) (r : RunResult) :
    (finalize_intent s intentId r).jobs = s.jobs := rfl

/-!
## Claim C5
-/

/-- Claim C5 (amended): when the dispatch loop exits with no pending jobs
remaining, `run_intent` computes the final counts of complete,
needs-review, and failed jobs into the returned `RunResult`, and persists
onto the Intent its final status — `needs_review` when any job needs
review, else `complete` — together with the completed count as
`completed_files`; the needs-review and failed counts are returned to the
caller but not stored on the Intent. -/
theorem run_intent_finalization
    (env : Nat → CopyEnv) (fuel : Nat) (s : Store) (intentId : Nat)
    (intent : Intent) (r : RunResult) (s' : Store)
    (hint : s.getIntent intentId = some intent)
    (hrun : run_intent env fuel s intentId = some (.ok (r, s'))) :
    ∃ s2, dispatch_loop env intentId fuel (recover_jobs s intentId) = some s2 ∧
      get_pending_jobs s2 intentId = [] ∧
      r = compute_result s2 intentId ∧
      r.completed = ((s2.jobs.filter (fun p => p.2.intent == intentId)).filter
        (fun p => p.2.status == JobStatus.complete)).length ∧
      r.needsReview = ((s2.jobs.filter (fun p => p.2.intent == intentId)).filter
        (fun p => p.2.status == JobStatus.needsReview)).length ∧
      r.failed = ((s2.jobs.filter (fun p => p.2.intent == intentId)).filter
        (fun p => p.2.status == JobStatus.failed)).length ∧
      s' = finalize_intent s2 intentId r ∧
      ∃ i, s'.getIntent intentId = some i ∧
        i.status = (if r.needsReview > 0 then IntentStatus.needsReview
                    else IntentStatus.complete) ∧
        i.completedFiles = r.completed := by
  simp only [run_intent, hint] at hrun
  split at hrun
  · simp at hrun
  next s2 hd =>
    simp only [Option.some_inj, Except.ok.injEq, Prod.mk.injEq] at hrun
    obtain ⟨hr, hs⟩ := hrun
    subst hr
    refine ⟨s2, hd, dispatch_loop_no_pending env intentId fuel _ _ hd, rfl,
            rfl, rfl, rfl, hs.symm, ?_⟩
    have hsint : s2.getIntent intentId = some intent := by
      rw [getIntent_eq_of_intents_eq (dispatch_loop_intents env intentId fuel _ _ hd),
          getIntent_recover_jobs, hint]
    rw [← hs]
    unfold finalize_intent
    rw [getIntent_updateIntent_self, hsint]
    exact ⟨_, rfl, rfl, rfl⟩

/-- A completed job of intent 0. -/
def jobDone : Job :=
  { intent := 0, sourcePath := "/s/x", destPath := "/d/x", destination := 1,
    size := 4, bytesTransferred := 4, status := .complete, attempts := 0,
    maxAttempts := 3, lastError := none, errorKind := none,
    sourceHash := some "hh", destHash := some "hh" }

/-- A job of intent 0 carrying the externally-settable `failed` status. -/
def jobFailedRec : Job :=
  { intent := 0, sourcePath := "/s/y", destPath := "/d/y", destination := 1,
    size := 4, bytesTransferred := 0, status := .failed, attempts := 0,
    maxAttempts := 3, lastError := none, errorKind := none,
    sourceHash := none, destHash := none }

/-- Quiescent store with one complete job. -/
def storeQ1 : Store :=
  { intents := [(0, intentC3)], locations := [], jobs := [(1, jobDone)],
    reviews := [], nextId := 2 }

/-- Quiescent store with one complete and one failed job. -/
def storeQ2 : Store :=
  { intents := [(0, intentC3)], locations := [],
    jobs := [(1, jobDone), (2, jobFailedRec)], reviews := [], nextId := 3 }

/-- Counterexample for C5: the claim says the computed counts of complete,
needs-review, and failed jobs are persisted onto the Intent.  Two runs
whose failed counts differ (0 vs 1) finalize the Intent to the identical
record — only `status` and `completed_files` are written — so the failed
and needs-review counts are not persisted onto the Intent. -/
theorem run_intent_failed_count_not_persisted :
    run_intent envTrivial 1 storeQ1 0
      = some (.ok ({ completed := 1, failed := 0, needsReview := 0 },
          finalize_intent storeQ1 0 { completed := 1, failed := 0, needsReview := 0 })) ∧
    run_intent envTrivial 1 storeQ2 0
      = some (.ok ({ completed := 1, failed := 1, needsReview := 0 },
          finalize_intent storeQ2 0 { completed := 1, failed := 1, needsReview := 0 })) ∧
    (finalize_intent storeQ1 0 { completed := 1, failed := 0, needsReview := 0 }).getIntent 0
      = (finalize_intent storeQ2 0 { completed := 1, failed := 1, needsReview := 0 }).getIntent 0 :=
  ⟨rfl, rfl, rfl⟩

/-- Witness for the amended C5, at the concrete quiescent store with one
complete and one failed job. -/
theorem run_intent_finalization_witness :
    ∃ s2, dispatch_loop envTrivial 0 1 (recover_jobs storeQ2 0) = some s2 ∧
      get_pending_jobs s2 0 = [] ∧
      ({ completed := 1, failed := 1, needsReview := 0 } : RunResult)
        = compute_result s2 0 ∧
      ({ completed := 1, failed := 1, needsReview := 0 } : RunResult).completed
        = ((s2.jobs.filter (fun p => p.2.intent == 0)).filter
            (fun p => p.2.status == JobStatus.complete)).length ∧
      ({ completed := 1, failed := 1, needsReview := 0 } : RunResult).needsReview
        = ((s2.jobs.filter (fun p => p.2.intent == 0)).filter
            (fun p => p.2.status == JobStatus.needsReview)).length ∧
      ({ completed := 1, failed := 1, needsReview := 0 } : RunResult).failed
        = ((s2.jobs.filter (fun p => p.2.intent == 0)).filter
            (fun p => p.2.status == JobStatus.failed)).length ∧
      finalize_intent storeQ2 0 { completed := 1, failed := 1, needsReview := 0 }
        = finalize_intent s2 0 { completed := 1, failed := 1, needsReview := 0 } ∧
      ∃ i, (finalize_intent storeQ2 0
              { completed := 1, failed := 1, needsReview := 0 }).getIntent 0 = some i ∧
        i.status = (if ({ completed := 1, failed := 1, needsReview := 0 }
                        : RunResult).needsReview > 0
                    then IntentStatus.needsReview else IntentStatus.complete) ∧
        i.completedFiles
          = ({ completed := 1, failed := 1, needsReview := 0 } : RunResult).completed :=
  run_intent_finalization envTrivial 1 storeQ2 0 intentC3
    { completed := 1, failed := 1, needsReview := 0 }
    (finalize_intent storeQ2 0 { completed := 1, failed := 1, needsReview := 0 })
    rfl rfl

theorem map_id_of_mem {α : Type} (l : List α) (f : α → α) (h : ∀ a ∈ l, f a = a) :
    l.map f = l := by
  induction l with
  | nil => rfl
  | cons a rest ih =>
    simp only [List.map_cons, h a (by simp)]
    rw [ih (fun b hb => h b (by simp [hb]))]

theorem recover_jobs_quiescent (s : Store) (intentId : Nat)
    (h : ∀ p ∈ s.jobs, p.2.intent = intentId → p.2.status ≠ JobStatus.transferring) :
    recover_jobs s intentId = s := by
  unfold recover_jobs
  rw [map_id_of_mem]
  intro p hp
  have hcond : (p.2.intent == intentId && p.2.status == JobStatus.transferring) = false := by
    cases hi : (p.2.intent == intentId) with
    | false => simp
    | true =>
      have hne := h p hp (by simpa using hi)
      rw [Bool.true_and, beq_eq_false_iff_ne]
      exact hne
  rw [hcond]
  simp

theorem get_pending_jobs_quiescent (s : Store) (intentId : Nat)
    (h : ∀ p ∈ s.jobs, p.2.intent = intentId → p.2.status ≠ JobStatus.pending) :
    get_pending_jobs s intentId = [] := by
  unfold get_pending_jobs
  have hf : s.jobs.filter
      (fun p => p.2.intent == intentId && p.2.status == JobStatus.pending) = [] := by
    rw [List.filter_eq_nil_iff]
    intro p hp
    cases hi : (p.2.intent == intentId) with
    | false => simp [hi]
    | true =>
      have hne := h p hp (by simpa using hi)
      simp [hi, beq_eq_false_iff_ne]
      exact hne
  rw [hf]
  rfl

theorem run_intent_quiescent_step
    (env : Nat → CopyEnv) (s : Store) (intentId : Nat) (intent : Intent)
    (hint : s.getIntent intentId = some intent)
    (hq : ∀ p ∈ s.jobs, p.2.intent = intentId →
            p.2.status ≠ JobStatus.pending ∧ p.2.status ≠ JobStatus.transferring) :
    run_intent env 1 s intentId
      = some (.ok (compute_result s intentId,
          finalize_intent s intentId (compute_result s intentId))) := by
  have hrec : recover_jobs s intentId = s :=
    recover_jobs_quiescent s intentId (fun p hp hi => (hq p hp hi).2)
  have hpend : get_pending_jobs s intentId = [] :=
    get_pending_jobs_quiescent s intentId (fun p hp hi => (hq p hp hi).1)
  simp only [run_intent, hint, hrec, dispatch_loop, hpend, List.isEmpty_nil, if_true]

theorem getIntent_finalize_intent (s : Store) (intentId : Nat) (r : RunResult) :
    (finalize_intent s intentId r).getIntent intentId
      = (s.getIntent intentId).map (fun i =>
          { i with status := (if r.needsReview > 0 then IntentStatus.needsReview
                              else IntentStatus.complete),
                   completedFiles := r.completed }) := by
  simp only [finalize_intent]
  rw [getIntent_updateIntent_self]

/-!
## Claim C9
-/

/-- Claim C9: re-running `run_intent` on an intent with no pending and no
transferring jobs leaves every job record unchanged and re-derives and
persists the same finalized intent status from the existing job counts:
the first run returns the counts computed from the existing jobs and only
finalizes the intent record; a second run (under any copy environment)
returns the same result, the same job records, and the same intent
record. -/
theorem run_intent_quiescent_idempotent
    (env env2 : Nat → CopyEnv) (s : Store) (intentId : Nat) (intent : Intent)
    (hint : s.getIntent intentId = some intent)
    (hq : ∀ p ∈ s.jobs, p.2.intent = intentId →
            p.2.status ≠ JobStatus.pending ∧ p.2.status ≠ JobStatus.transferring) :
    run_intent env 1 s intentId
      = some (.ok (compute_result s intentId,
          finalize_intent s intentId (compute_result s intentId))) ∧
    (finalize_intent s intentId (compute_result s intentId)).jobs = s.jobs ∧
    run_intent env2 1 (finalize_intent s intentId (compute_result s intentId)) intentId
      = some (.ok (compute_result s intentId,
          finalize_intent (finalize_intent s intentId (compute_result s intentId))
            intentId (compute_result s intentId))) ∧
    (finalize_intent (finalize_intent s intentId (compute_result s intentId))
       intentId (compute_result s intentId)).jobs = s.jobs ∧
    (finalize_intent (finalize_intent s intentId (compute_result s intentId))
       intentId (compute_result s intentId)).getIntent intentId
      = (finalize_intent s intentId (compute_result s intentId)).getIntent intentId := by
  have hint2 : (finalize_intent s intentId (compute_result s intentId)).getIntent intentId
      = some { intent with
                 status := (if (compute_result s intentId).needsReview > 0
                            then IntentStatus.needsReview else IntentStatus.complete),
                 completedFiles := (compute_result s intentId).completed } := by
    rw [getIntent_finalize_intent, hint]
    rfl
  refine ⟨run_intent_quiescent_step env s intentId intent hint hq, rfl, ?_, rfl, ?_⟩
  · exact run_intent_quiescent_step env2
      (finalize_intent s intentId (compute_result s intentId)) intentId _ hint2 hq
  · rw [getIntent_finalize_intent, getIntent_finalize_intent, hint]
    rfl

/-- Witness for C9 at the concrete quiescent store with one complete and
one failed job. -/
theorem run_intent_quiescent_idempotent_witness :
    run_intent envTrivial 1 storeQ2 0
      = some (.ok (compute_result storeQ2 0,
          finalize_intent storeQ2 0 (compute_result storeQ2 0))) ∧
    (finalize_intent storeQ2 0 (compute_result storeQ2 0)).jobs = storeQ2.jobs ∧
    run_intent envTrivial 1 (finalize_intent storeQ2 0 (compute_result storeQ2 0)) 0
      = some (.ok (compute_result storeQ2 0,
          finalize_intent (finalize_intent storeQ2 0 (compute_result storeQ2 0))
            0 (compute_result storeQ2 0))) ∧
    (finalize_intent (finalize_intent storeQ2 0 (compute_result storeQ2 0))
       0 (compute_result storeQ2 0)).jobs = storeQ2.jobs ∧
    (finalize_intent (finalize_intent storeQ2 0 (compute_result storeQ2 0))
       0 (compute_result storeQ2 0)).getIntent 0
      = (finalize_intent storeQ2 0 (compute_result storeQ2 0)).getIntent 0 :=
  run_intent_quiescent_idempotent envTrivial envTrivial storeQ2 0 intentC3
    rfl (by decide)

/-!
## Claim C10
-/

/-- No job record carries the `failed` status. -/
def no_failed (s : Store) : Prop :=
  ∀ p ∈ s.jobs, p.2.status ≠ JobStatus.failed

theorem ite_status_ne_failed {c : Prop} [Decidable c] (a b : JobStatus)
    (ha : a ≠ .failed) (hb : b ≠ .failed) : (if c then a else b) ≠ .failed := by
  split
  · exact ha
  · exact hb

theorem no_failed_updateJob (s : Store) (id : Nat) (f : Job → Job)
    (hs : no_failed s)
    (hf : ∀ j, (f j).status = j.status ∨ (f j).status ≠ JobStatus.failed) :
    no_failed (s.updateJob id f) := by
  intro p hp
  obtain ⟨q, hq, rfl⟩ := List.mem_map.mp hp
  cases hc : (q.1 == id) with
  | true =>
    show (f q.2).status ≠ JobStatus.failed
    rcases hf q.2 with h1 | h1
    · rw [h1]
      exact hs q hq
    · exact h1
  | false =>
    exact hs q hq

theorem no_failed_applyProgress (id : Nat) (fl : Nat → Bool) :
    ∀ (k : Nat) (evs : List Nat) (s : Store), no_failed s →
      no_failed (applyProgress id fl k evs s) := by
  intro k evs
  induction evs generalizing k with
  | nil => intro s hs; exact hs
  | cons v rest ih =>
    intro s hs
    simp only [applyProgress]
    apply ih
    cases hf : fl k with
    | true =>
      rw [if_pos rfl]
      exact hs
    | false =>
      rw [if_neg (by simp)]
      exact no_failed_updateJob _ _ _ hs (fun j => Or.inl rfl)

theorem no_failed_addReview (s : Store) (it : ReviewItem) (hs : no_failed s) :
    no_failed (s.addReview it) := hs

theorem no_failed_copy_job (h : List Nat → String) (faults : DbFaults)
    (fs : FsModel) (s : Store) (jobId : Nat) (hs : no_failed s) :
    no_failed (copy_job h faults fs s jobId).2 := by
  simp only [copy_job]
  split
  · exact hs
  · split
    · exact hs
    · split
      · split
        · apply no_failed_applyProgress
          apply no_failed_updateJob
          · exact hs
          · intro j
            exact Or.inr (fun hcon => JobStatus.noConfusion hcon)
        · apply no_failed_updateJob
          · apply no_failed_applyProgress
            apply no_failed_updateJob
            · exact hs
            · intro j
              exact Or.inr (fun hcon => JobStatus.noConfusion hcon)
          · intro j
            exact Or.inr (fun hcon => JobStatus.noConfusion hcon)
      · split
        · apply no_failed_applyProgress
          apply no_failed_updateJob
          · exact hs
          · intro j
            exact Or.inr (fun hcon => JobStatus.noConfusion hcon)
        · split
          · rw [if_neg (fun hcon => JobStatus.noConfusion hcon.1)]
            apply no_failed_updateJob
            · apply no_failed_applyProgress
              apply no_failed_updateJob
              · exact hs
              · intro j
                exact Or.inr (fun hcon => JobStatus.noConfusion hcon)
            · intro j
              exact Or.inr (fun hcon => JobStatus.noConfusion hcon)
          · split
            · apply no_failed_addReview
              apply no_failed_updateJob
              · apply no_failed_applyProgress
                apply no_failed_updateJob
                · exact hs
                · intro j
                  exact Or.inr (fun hcon => JobStatus.noConfusion hcon)
              · intro j
                exact Or.inr (fun hcon => JobStatus.noConfusion hcon)
            · apply no_failed_updateJob
              · apply no_failed_applyProgress
                apply no_failed_updateJob
                · exact hs
                · intro j
                  exact Or.inr (fun hcon => JobStatus.noConfusion hcon)
              · intro j
                exact Or.inr (fun hcon => JobStatus.noConfusion hcon)

theorem no_failed_recover_jobs (s : Store) (intentId : Nat) (hs : no_failed s) :
    no_failed (recover_jobs s intentId) := by
  intro p hp
  obtain ⟨q, hq, rfl⟩ := List.mem_map.mp hp
  cases hc : (q.2.intent == intentId && q.2.status == JobStatus.transferring) with
  | true => simp [hc]
  | false => simpa [hc] using hs q hq

theorem no_failed_run_batch (env : Nat → CopyEnv) :
    ∀ (ids : List Nat) (s : Store), no_failed s → no_failed (run_batch env ids s) := by
  intro ids
  induction ids with
  | nil => intro s hs; exact hs
  | cons id rest ih =>
    intro s hs
    exact ih _ (no_failed_copy_job _ _ _ _ _ hs)

theorem no_failed_dispatch_loop (env : Nat → CopyEnv) (intentId : Nat) :
    ∀ (fuel : Nat) (s s2 : Store), no_failed s →
      dispatch_loop env intentId fuel s = some s2 → no_failed s2 := by
  intro fuel
  induction fuel with
  | zero => intro s s2 hs hd; simp [dispatch_loop] at hd
  | succ n ih =>
    intro s s2 hs hd
    simp only [dispatch_loop] at hd
    split at hd
    · rw [← Option.some_inj.mp hd]; exact hs
    · exact ih _ _ (no_failed_run_batch env _ _ hs) hd

theorem compute_result_failed_zero (s : Store) (intentId : Nat)
    (hs : no_failed s) : (compute_result s intentId).failed = 0 := by
  simp only [compute_result]
  have hf : (s.jobs.filter (fun p => p.2.intent == intentId)).filter
      (fun p => p.2.status == JobStatus.failed) = [] := by
    rw [List.filter_eq_nil_iff]
    intro p hp
    have := hs p (List.mem_of_mem_filter hp)
    simp [beq_eq_false_iff_ne]
    exact this
  rw [hf]
  rfl

/-- Claim C10: no operation of the core ever writes the `failed` status to
a transfer job: the Scanner creates jobs only as `pending`, the Copier's
writes keep the no-failed invariant (it only ever writes `transferring`,
`complete`, `pending`, or `needs_review`), and consequently on any job set
mutated only by this core the failed count in every `RunResult` is 0. -/
theorem core_never_writes_failed :
    (∀ (s : Store) (intentId : Nat) (base : String)
       (entries : List (String × Nat)) (dests : List (Nat × String)),
       no_failed s → no_failed (create_transfer_jobs s intentId base entries dests).2) ∧
    (∀ (h : List Nat → String) (faults : DbFaults) (fs : FsModel)
       (s : Store) (jobId : Nat),
       no_failed s → no_failed (copy_job h faults fs s jobId).2) ∧
    (∀ (env : Nat → CopyEnv) (fuel : Nat) (s : Store) (intentId : Nat)
       (r : RunResult) (s' : Store),
       no_failed s → run_intent env fuel s intentId = some (.ok (r, s')) →
       r.failed = 0 ∧ no_failed s') := by
  refine ⟨?_, fun h faults fs s jobId hs => no_failed_copy_job h faults fs s jobId hs, ?_⟩
  · intro s intentId base entries dests hs
    obtain ⟨nj, c1, c2, c3, clen, c4, c5, c6⟩ :=
      create_jobs_loop_spec intentId base entries dests (0, s)
    intro p hp
    rw [show (create_transfer_jobs s intentId base entries dests).2.jobs
          = s.jobs ++ nj from c2] at hp
    rcases List.mem_append.mp hp with hp | hp
    · exact hs p hp
    · have hmem : p.2 ∈ nj.map (fun q => q.2) := List.mem_map_of_mem _ hp
      rw [c3] at hmem
      obtain ⟨l, hl, hpl⟩ := List.mem_flatten.mp hmem
      obtain ⟨d, hd, rfl⟩ := List.mem_map.mp hl
      obtain ⟨e, he, hpe⟩ := List.mem_map.mp hpl
      rw [← hpe]
      exact fun hcon => JobStatus.noConfusion hcon
  · intro env fuel s intentId r s' hs hrun
    simp only [run_intent] at hrun
    split at hrun
    · simp at hrun
    · split at hrun
      · simp at hrun
      next s2 hd =>
        simp only [Option.some_inj, Except.ok.injEq, Prod.mk.injEq] at hrun
        obtain ⟨hr, hsEq⟩ := hrun
        have hs2 : no_failed s2 :=
          no_failed_dispatch_loop env intentId fuel _ _
            (no_failed_recover_jobs s intentId hs) hd
        subst hr
        refine ⟨compute_result_failed_zero s2 intentId hs2, ?_⟩
        rw [← hsEq]
        exact hs2

/-- Witness for C10: the three conjuncts applied at concrete inputs — a
scan creating one job, a failing copy that escalates, and a quiescent run
over a no-failed store. -/
theorem core_never_writes_failed_witness :
    no_failed (create_transfer_jobs storeA 0 "/src" [("f.txt", 1)] [(7, "/d")]).2 ∧
    no_failed (copy_job hashRender noFaults fsMissing storeA 10).2 ∧
    (({ completed := 1, failed := 0, needsReview := 0 } : RunResult).failed = 0 ∧
      no_failed (finalize_intent storeQ1 0
        { completed := 1, failed := 0, needsReview := 0 })) :=
  ⟨core_never_writes_failed.1 storeA 0 "/src" [("f.txt", 1)] [(7, "/d")]
     (by simp [no_failed, storeA, jobA]),
   core_never_writes_failed.2.1 hashRender noFaults fsMissing storeA 10
     (by simp [no_failed, storeA, jobA]),
   core_never_writes_failed.2.2 envTrivial 1 storeQ1 0
     { completed := 1, failed := 0, needsReview := 0 }
     (finalize_intent storeQ1 0 { completed := 1, failed := 0, needsReview := 0 })
     (by simp [no_failed, storeQ1, jobDone]) rfl⟩

end Kip
